import Mathlib

/-!
Verification development for the `my_guitar_project` renderer.

The Python sources under `src/instruments/` (guitar.py, bass.py, piano.py,
drums.py) are shallowly embedded below: sample buffers become `List ℚ`,
numpy slice updates become explicit list surgery, and the per-engine
arithmetic is transcribed operation by operation.  Definitions whose doc
comment says "from the spec" are transcriptions of the specification text,
kept separate so that they can be compared with the code-derived
definitions.
-/

/-- Sample rate, `SR = 48000` in every engine module. -/
def SR : ℕ := 48000

/-! ## Buffer peak utilities

`np.max(np.abs(buf))` over a float buffer, embedded on `List ℚ`. -/

/-- Peak absolute value of a buffer, `np.max(np.abs(buf))` (0 for the empty
buffer, matching a zero-length render). -/
def listPeak (l : List ℚ) : ℚ :=
  l.foldr (fun x m => max |x| m) 0

theorem listPeak_nonneg (l : List ℚ) : 0 ≤ listPeak l := by
  induction l with
  | nil => simp [listPeak]
  | cons x xs ih =>
    simp only [listPeak, List.foldr_cons] at *
    exact le_trans ih (le_max_right _ _)

theorem abs_le_listPeak {l : List ℚ} {x : ℚ} (hx : x ∈ l) : |x| ≤ listPeak l := by
  induction l with
  | nil => cases hx
  | cons y ys ih =>
    rcases List.mem_cons.mp hx with h | h
    · subst h; exact le_max_left _ _
    · exact le_trans (ih h) (le_max_right _ _)

theorem listPeak_le_of_forall {l : List ℚ} {c : ℚ} (hc : 0 ≤ c)
    (h : ∀ x ∈ l, |x| ≤ c) : listPeak l ≤ c := by
  induction l with
  | nil => simpa [listPeak] using hc
  | cons y ys ih =>
    simp only [listPeak, List.foldr_cons]
    exact max_le (h y (List.mem_cons_self y ys))
      (ih fun x hx => h x (List.mem_cons_of_mem y hx))

/-- Normalisation bound: if every element satisfies `|x| ≤ p` and `0 < p`,
then `|x / p * t| ≤ t` for `0 ≤ t`. -/
theorem abs_div_peak_mul_le {x p t : ℚ} (hp : 0 < p) (ht : 0 ≤ t)
    (hx : |x| ≤ p) : |x / p * t| ≤ t := by
  have h1 : |x / p * t| = |x| / p * t := by
    rw [abs_mul, abs_div, abs_of_pos hp, abs_of_nonneg ht]
  rw [h1]
  have h2 : |x| / p ≤ 1 := (div_le_one hp).mpr hx
  calc |x| / p * t ≤ 1 * t := by
        exact mul_le_mul_of_nonneg_right h2 ht
    _ = t := one_mul t

/-! ## Final limiter / normalisation stages (C1)

The last steps of each engine's `midi_to_audio`, applied to the complete
mix buffer just before the 16-bit conversion. -/

/-- `soft_clipper` from guitar.py lines 92-107: linear below the threshold,
cubic-style compression `threshold + excess / (1 + excess²)` above it. -/
def soft_clipper (threshold x : ℚ) : ℚ :=
  if |x| < threshold then x
  else
    (if 0 < x then 1 else -1) * (threshold + (|x| - threshold) / (1 + (|x| - threshold) ^ 2))

/-- `adaptive_limiter` from guitar.py lines 110-134: scale the whole buffer
by `target/peak` when the peak exceeds the target, then soft-clip every
sample at the target. -/
def adaptive_limiter (target : ℚ) (buffer : List ℚ) : List ℚ :=
  let peak := listPeak buffer
  let scaled := if target < peak then buffer.map (fun x => x * (target / peak)) else buffer
  scaled.map (soft_clipper target)

/-- Final stage of guitar.py `midi_to_audio` (lines 303-309): adaptive
limiter with target 0.93, then peak-normalise to 0.95 whenever the peak
exceeds 0.01. -/
def guitar_finalize (buf : List ℚ) : List ℚ :=
  let limited := adaptive_limiter (93/100) buf
  let peak := listPeak limited
  if 1/100 < peak then limited.map (fun x => x / peak * (95/100)) else limited

/-- Per-sample soft limiter of bass.py lines 152-162 (`adaptive_limiter` in
that module): samples above the target become
`target + excess / (1 + 2·excess)`. -/
def bass_soft_limit (target x : ℚ) : ℚ :=
  if target < |x| then
    (if 0 < x then 1 else -1) * (target + (|x| - target) / (1 + (|x| - target) * 2))
  else x

/-- Final stage of bass.py `midi_to_audio` (lines 307-313): per-sample soft
limiter at 0.95, then peak-normalise to 0.96 whenever the peak exceeds
0.01. -/
def bass_finalize (buf : List ℚ) : List ℚ :=
  let limited := buf.map (bass_soft_limit (95/100))
  let peak := listPeak limited
  if 1/100 < peak then limited.map (fun x => x / peak * (96/100)) else limited

/-- Final stage of piano.py `midi_to_audio` (lines 368-371): peak-normalise
to 0.9 whenever the peak exceeds 0.0001. -/
def piano_finalize (buf : List ℚ) : List ℚ :=
  let peak := listPeak buf
  if 1/10000 < peak then buf.map (fun x => x / peak * (9/10)) else buf

/-- Final stage of drums.py `midi_to_audio` (lines 392-397): scale to peak
0.95 whenever the peak exceeds 0.95. -/
def drums_finalize (buf : List ℚ) : List ℚ :=
  let peak := listPeak buf
  if 95/100 < peak then buf.map (fun x => x / peak * (95/100)) else buf

theorem peak_normalize_le {buf : List ℚ} {c t : ℚ} (hc : 0 < c) (ht : 0 ≤ t)
    (h : c < listPeak buf) :
    listPeak (buf.map (fun x => x / listPeak buf * t)) ≤ t := by
  have hp : 0 < listPeak buf := lt_trans hc h
  refine listPeak_le_of_forall ht ?_
  intro y hy
  rcases List.mem_map.mp hy with ⟨x, hx, rfl⟩
  exact abs_div_peak_mul_le hp ht (abs_le_listPeak hx)

/-- C1 — Every engine's returned float buffer has peak absolute value at
most 0.96: the guitar normalises to 0.95, the bass to 0.96, the piano to
0.9, and the drums cap at 0.95; in each below-threshold branch the peak is
already below the threshold (0.01, 0.01, 0.0001, 0.95 respectively), all
of which are at most 0.96. -/
theorem float_buffer_peak_le (buf : List ℚ) :
    listPeak (guitar_finalize buf) ≤ 96/100 ∧
    listPeak (bass_finalize buf) ≤ 96/100 ∧
    listPeak (piano_finalize buf) ≤ 96/100 ∧
    listPeak (drums_finalize buf) ≤ 96/100 := by
  refine ⟨?_, ?_, ?_, ?_⟩
  · unfold guitar_finalize
    set limited := adaptive_limiter (93/100) buf with hlim
    by_cases h : (1:ℚ)/100 < listPeak limited
    · simp only [h, if_true]
      exact le_trans (peak_normalize_le (by norm_num) (by norm_num) h) (by norm_num)
    · simp only [h, if_false]
      exact le_trans (not_lt.mp h) (by norm_num)
  · unfold bass_finalize
    set limited := buf.map (bass_soft_limit (95/100)) with hlim
    by_cases h : (1:ℚ)/100 < listPeak limited
    · simp only [h, if_true]
      exact peak_normalize_le (by norm_num) (by norm_num) h
    · simp only [h, if_false]
      exact le_trans (not_lt.mp h) (by norm_num)
  · unfold piano_finalize
    by_cases h : (1:ℚ)/10000 < listPeak buf
    · simp only [h, if_true]
      exact le_trans (peak_normalize_le (by norm_num) (by norm_num) h) (by norm_num)
    · simp only [h, if_false]
      exact le_trans (not_lt.mp h) (by norm_num)
  · unfold drums_finalize
    by_cases h : (95:ℚ)/100 < listPeak buf
    · simp only [h, if_true]
      exact le_trans (peak_normalize_le (by norm_num) (by norm_num) h) (by norm_num)
    · simp only [h, if_false]
      exact le_trans (not_lt.mp h) (by norm_num)

/-! ## Guitar Karplus-Strong decay factor (C2)

guitar.py lines 58-64, inside `karplus_strong_hifi`. -/

/-- Decay factor of the guitar Karplus-Strong loop, guitar.py lines 58-64:
`0.9992 − min(freq/1200, 1)·0.0008 − decay_factor·0.002`, then
`max(·, 0.988)`, then `min(·, 0.9995)`.  The `decay_factor` argument is the
engine's `coupling` parameter (guitar.py line 265). -/
def guitar_final_decay (freq decay_factor : ℚ) : ℚ :=
  let base_decay : ℚ := 9992/10000
  let freq_decay : ℚ := min (freq / 1200) 1 * (8/10000)
  let user_decay : ℚ := decay_factor * (2/1000)
  min (max (base_decay - freq_decay - user_decay) (988/1000)) (9995/10000)

/-- From the spec: decay `0.9990 − min(f/1000, 1)·0.001 − coupling·0.002`,
clamped to `[0.985, 0.9995]`. -/
def spec_guitar_decay (f c : ℚ) : ℚ :=
  min (max ((9990/10000) - min (f / 1000) 1 * (1/1000) - c * (2/1000)) (985/1000)) (9995/10000)

/-- C2 counterexample — at frequency 110 Hz with the default coupling
0.005 the code's decay (0.99911 2/3 e-3 …) differs from the decay the spec
prescribes (0.99888): the code uses base 0.9992, compensation
`min(f/1200,1)·0.0008` and clamp `[0.988, 0.9995]`, not base 0.9990,
`min(f/1000,1)·0.001` and `[0.985, 0.9995]`. -/
theorem guitar_decay_ne_spec_at_110 :
    guitar_final_decay 110 (5/1000) ≠ spec_guitar_decay 110 (5/1000) := by
  unfold guitar_final_decay spec_guitar_decay
  norm_num

/-- C2 amended — the guitar decay equals
`0.9992 − min(f/1200, 1)·0.0008 − c·0.002` clamped to `[0.988, 0.9995]`:
the result always lies in that interval, and whenever the raw value is
inside the interval the clamp leaves it unchanged. -/
theorem guitar_decay_clamped (f c : ℚ) :
    988/1000 ≤ guitar_final_decay f c ∧
    guitar_final_decay f c ≤ 9995/10000 ∧
    (988/1000 ≤ 9992/10000 - min (f / 1200) 1 * (8/10000) - c * (2/1000) →
      9992/10000 - min (f / 1200) 1 * (8/10000) - c * (2/1000) ≤ 9995/10000 →
      guitar_final_decay f c =
        9992/10000 - min (f / 1200) 1 * (8/10000) - c * (2/1000)) := by
  have hshow : guitar_final_decay f c =
      min (max (9992/10000 - min (f / 1200) 1 * (8/10000) - c * (2/1000)) (988/1000))
        (9995/10000) := rfl
  refine ⟨?_, ?_, ?_⟩
  · rw [hshow]; exact le_min (le_max_right _ _) (by norm_num)
  · rw [hshow]; exact min_le_right _ _
  · intro h1 h2
    rw [hshow, max_eq_left h1, min_eq_left h2]

/-- C2 amended witness — at `f = 110`, `c = 0.005` the raw decay is
`59947/60000 ≈ 0.999117`, inside the clamp interval, so the decay equals
it. -/
theorem guitar_decay_clamped_witness :
    guitar_final_decay 110 (5/1000) = 59947/60000 := by
  have h := (guitar_decay_clamped 110 (5/1000)).2.2 (by norm_num) (by norm_num)
  rw [h]; norm_num

/-! ## Duration handling (C3)

Each engine computes `total_samples = int((Σ msg.time + pad) · SR)` and
silently truncates it to `SR · 300`; no error is ever raised for long
scores (guitar.py 185-188, bass.py 185-188, piano.py 237-240,
drums.py 275-277). -/

/-- Buffer length for a score of duration `d` seconds with tail pad `pad`:
`min(int((d+pad)·SR), 300·SR)`.  Always succeeds: the code has no failure
path tied to duration, it truncates instead. -/
def total_samples_capped (pad d : ℚ) : ℕ :=
  min (Int.toNat ⌊(d + pad) * SR⌋) (300 * SR)

/-- Guitar duration handling (guitar.py 185-188, pad 3 s): the render
always proceeds with a truncated buffer, returning `some` length. -/
def guitar_duration_gate (d : ℚ) : Option ℕ :=
  some (total_samples_capped 3 d)

/-- Bass duration handling (bass.py 185-188, pad 4 s). -/
def bass_duration_gate (d : ℚ) : Option ℕ :=
  some (total_samples_capped 4 d)

/-- Piano duration handling (piano.py 237-240, pad 5 s). -/
def piano_duration_gate (d : ℚ) : Option ℕ :=
  some (total_samples_capped 5 d)

/-- Drums duration handling (drums.py 275-277, pad 3 s). -/
def drums_duration_gate (d : ℚ) : Option ℕ :=
  some (total_samples_capped 3 d)

/-- C3 counterexample — a 700-second score does not fail: the guitar
engine proceeds and allocates a buffer truncated to `300 · SR = 14400000`
samples; there is no `RenderFailed` (or any other) duration error in any
engine. -/
theorem no_duration_error_at_700 :
    guitar_duration_gate 700 = some 14400000 ∧ guitar_duration_gate 700 ≠ none := by
  constructor
  · unfold guitar_duration_gate total_samples_capped SR
    norm_num
  · unfold guitar_duration_gate
    exact Option.some_ne_none _

/-- C3 amended — for every score duration `d`, every engine proceeds
(returns `some` buffer length) and the buffer is truncated to at most
`300 · SR` samples; no duration-related error exists.  (A WAV-write
failure makes `midi_to_audio` return the pair `(None, None)` in the
guitar, bass and piano engines, not a typed `EncodingError`.) -/
theorem duration_always_truncated (d : ℚ) :
    (∃ n, guitar_duration_gate d = some n ∧ n ≤ 300 * SR) ∧
    (∃ n, bass_duration_gate d = some n ∧ n ≤ 300 * SR) ∧
    (∃ n, piano_duration_gate d = some n ∧ n ≤ 300 * SR) ∧
    (∃ n, drums_duration_gate d = some n ∧ n ≤ 300 * SR) := by
  refine ⟨⟨_, rfl, ?_⟩, ⟨_, rfl, ?_⟩, ⟨_, rfl, ?_⟩, ⟨_, rfl, ?_⟩⟩ <;>
    exact min_le_right _ _

/-! ## Bass arrangement fold (C4)

bass.py lines 229-238: with `AUTO_BASS_ARRANGE = True` (a module constant,
there is no solo/accompaniment mode switch and no time-cluster selection),
every note is folded by `while note > 55: note -= 12` then
`while note < 28: note += 12` before rendering. -/

/-- First fold loop of bass.py line 231-232: `while note > 55: note -= 12`. -/
def bass_fold_down (n : ℤ) : ℤ :=
  if h : 55 < n then bass_fold_down (n - 12) else n
termination_by (n - 55).toNat
decreasing_by omega

/-- Second fold loop of bass.py line 233-234: `while note < 28: note += 12`. -/
def bass_fold_up (n : ℤ) : ℤ :=
  if h : n < 28 then bass_fold_up (n + 12) else n
termination_by (28 - n).toNat
decreasing_by omega

/-- The complete arrangement fold applied to every bass note
(bass.py lines 229-238). -/
def bass_arrange (n : ℤ) : ℤ :=
  bass_fold_up (bass_fold_down n)

theorem bass_fold_down_le_aux :
    ∀ k, ∀ n : ℤ, (n - 55).toNat = k → bass_fold_down n ≤ 55 := by
  intro k
  induction k using Nat.strong_induction_on with
  | _ k ih =>
    intro n hk
    unfold bass_fold_down
    split
    · next h => exact ih ((n - 12 - 55).toNat) (by omega) _ rfl
    · next h => omega

theorem bass_fold_down_le (n : ℤ) : bass_fold_down n ≤ 55 :=
  bass_fold_down_le_aux _ n rfl

theorem bass_fold_up_ge_aux :
    ∀ k, ∀ n : ℤ, (28 - n).toNat = k → 28 ≤ bass_fold_up n := by
  intro k
  induction k using Nat.strong_induction_on with
  | _ k ih =>
    intro n hk
    unfold bass_fold_up
    split
    · next h => exact ih ((28 - (n + 12)).toNat) (by omega) _ rfl
    · next h => omega

theorem bass_fold_up_ge (n : ℤ) : 28 ≤ bass_fold_up n :=
  bass_fold_up_ge_aux _ n rfl

theorem bass_fold_up_le_aux :
    ∀ k, ∀ n : ℤ, (28 - n).toNat = k → n ≤ 55 → bass_fold_up n ≤ 55 := by
  intro k
  induction k using Nat.strong_induction_on with
  | _ k ih =>
    intro n hk hn
    unfold bass_fold_up
    split
    · next h => exact ih ((28 - (n + 12)).toNat) (by omega) _ rfl (by omega)
    · next h => omega

theorem bass_fold_up_le (n : ℤ) (hn : n ≤ 55) : bass_fold_up n ≤ 55 :=
  bass_fold_up_le_aux _ n rfl hn

/-- C4 counterexample — input pitch 50 survives the fold unchanged and is
rendered at pitch 50, which is outside the `[28, 48]` range the claim
states for accompaniment mode (and the engine has no separate
accompaniment path: `AUTO_BASS_ARRANGE` is a constant `True` and there is
no time-cluster lowest-note selection). -/
theorem bass_arrange_50_exceeds_48 :
    bass_arrange 50 = 50 ∧ ¬ bass_arrange 50 ≤ 48 := by
  have hd : bass_fold_down (50 : ℤ) = 50 := by
    unfold bass_fold_down; norm_num
  have hu : bass_fold_up (50 : ℤ) = 50 := by
    unfold bass_fold_up; norm_num
  have h : bass_arrange 50 = 50 := by unfold bass_arrange; rw [hd, hu]
  exact ⟨h, by rw [h]; omega⟩

/-- C4 amended — every pitch rendered by the bass engine lies in
`[28, 55]`: the single unconditional fold first subtracts octaves while
the pitch exceeds 55, then adds octaves while it is below 28.  (All folded
pitches then pass the `35 Hz < f < 300 Hz` gate of bass.py line 247, since
pitches 28-55 correspond to 41.2-196 Hz.) -/
theorem bass_arrange_range (n : ℤ) :
    28 ≤ bass_arrange n ∧ bass_arrange n ≤ 55 :=
  ⟨bass_fold_up_ge _, bass_fold_up_le _ (bass_fold_down_le n)⟩

/-! ## Summation into the mix buffer (C8)

Every engine accumulates a rendered voice with
`end_idx = min(start + len(snippet), total_samples)` followed by
`mix_buffer[start:end_idx] += snippet[:end_idx - start]`
(guitar.py 279-281, bass.py 283-288, piano.py 337-339, drums.py 346-352).
`add_snippet` is that slice update on `List ℚ`. -/

/-- Numpy slice accumulation `mix_buffer[start:start+k] += snippet[:k]`
with `k = min(len(snippet), len(buf) - start)`, exactly the clamped write
every engine performs. -/
def add_snippet (buf : List ℚ) (start : ℕ) (snip : List ℚ) : List ℚ :=
  let k := min snip.length (buf.length - start)
  buf.take start ++
    List.zipWith (fun a b => a + b) ((buf.drop start).take k) (snip.take k) ++
    buf.drop (start + k)

theorem add_snippet_zip_length (buf : List ℚ) (start : ℕ) (snip : List ℚ) :
    (List.zipWith (fun a b : ℚ => a + b)
      ((buf.drop start).take (min snip.length (buf.length - start)))
      (snip.take (min snip.length (buf.length - start)))).length =
      min snip.length (buf.length - start) := by
  simp only [List.length_zipWith, List.length_take, List.length_drop]
  omega

/-- C8 — A voice write never touches the mix buffer outside
`[start, min(start + snippet_length, total_samples))`: the buffer keeps its
length, samples before `start` and at or after the clamped end are
unchanged, and inside the window the result is the pointwise sum — for all
start/end positions, including snippets running past the buffer end. -/
theorem mix_write_bounded (buf : List ℚ) (start : ℕ) (snip : List ℚ) :
    (add_snippet buf start snip).length = buf.length ∧
    (∀ i, i < start → (add_snippet buf start snip).get? i = buf.get? i) ∧
    (∀ i, min (start + snip.length) buf.length ≤ i →
      (add_snippet buf start snip).get? i = buf.get? i) ∧
    (∀ i, start ≤ i → i < start + min snip.length (buf.length - start) →
      (add_snippet buf start snip).get? i =
        some (buf.getD i 0 + snip.getD (i - start) 0)) := by
  set k := min snip.length (buf.length - start) with hk
  have hzl := add_snippet_zip_length buf start snip
  rw [← hk] at hzl
  have hlen : (add_snippet buf start snip).length = buf.length := by
    simp only [add_snippet, ← hk, List.length_append, List.length_take,
      List.length_drop, hzl]
    omega
  refine ⟨hlen, ?_, ?_, ?_⟩
  · -- indices before `start` are untouched
    intro i hi
    by_cases hil : i < buf.length
    · have hA : i < (buf.take start).length := by
        simp [List.length_take]; omega
      simp only [add_snippet, ← hk, List.get?_eq_getElem?, List.append_assoc]
      rw [List.getElem?_append_left hA]
      simp [List.getElem?_take_of_lt hi]
    · have h1 : (add_snippet buf start snip).get? i = none := by
        rw [List.get?_eq_getElem?, List.getElem?_eq_none]
        omega
      have h2 : buf.get? i = none := by
        rw [List.get?_eq_getElem?, List.getElem?_eq_none]
        omega
      rw [h1, h2]
  · -- indices at or after the clamped end are untouched
    intro i hi
    by_cases hil : i < buf.length
    · have hstart : start ≤ i := by omega
      have hki : start + k ≤ i := by omega
      have hA : (buf.take start).length ≤ i := by
        simp [List.length_take]; omega
      simp only [add_snippet, ← hk, List.get?_eq_getElem?, List.append_assoc]
      rw [List.getElem?_append_right hA]
      have hAlen : (buf.take start).length = start := by
        simp [List.length_take]; omega
      rw [hAlen]
      have hB : (List.zipWith (fun a b : ℚ => a + b)
          ((buf.drop start).take k) (snip.take k)).length ≤ i - start := by
        rw [hzl]; omega
      rw [List.getElem?_append_right hB, hzl]
      rw [List.getElem?_drop]
      congr 1
      omega
    · have h1 : (add_snippet buf start snip).get? i = none := by
        rw [List.get?_eq_getElem?, List.getElem?_eq_none]
        omega
      have h2 : buf.get? i = none := by
        rw [List.get?_eq_getElem?, List.getElem?_eq_none]
        omega
      rw [h1, h2]
  · -- inside the window the result is the pointwise sum
    intro i hi1 hi2
    have hkpos : 0 < k := by omega
    have hstartlen : start < buf.length := by omega
    have hA : (buf.take start).length ≤ i := by
      simp [List.length_take]; omega
    have hAlen : (buf.take start).length = start := by
      simp [List.length_take]; omega
    simp only [add_snippet, ← hk, List.get?_eq_getElem?, List.append_assoc]
    rw [List.getElem?_append_right hA, hAlen]
    have hB : i - start < (List.zipWith (fun a b : ℚ => a + b)
        ((buf.drop start).take k) (snip.take k)).length := by
      rw [hzl]; omega
    rw [List.getElem?_append_left hB]
    have hj1 : i - start < k := by omega
    have hbuf : ((buf.drop start).take k)[i - start]? = some (buf.getD i 0) := by
      rw [List.getElem?_take_of_lt hj1, List.getElem?_drop]
      have hlt : start + (i - start) < buf.length := by omega
      rw [List.getElem?_eq_getElem hlt]
      have : start + (i - start) = i := by omega
      rw [List.getD_eq_getElem buf 0 (by omega : i < buf.length)]
      simp [this]
    have hsn : (snip.take k)[i - start]? = some (snip.getD (i - start) 0) := by
      rw [List.getElem?_take_of_lt hj1]
      have hlt : i - start < snip.length := by omega
      rw [List.getElem?_eq_getElem hlt,
        List.getD_eq_getElem snip 0 (by omega : i - start < snip.length)]
    rw [List.getElem?_zipWith', hbuf, hsn]
    rfl

/-- C8 witness — concrete check on `buf = [1,2,3]`, `start = 1`,
`snip = [10,20,30,40]`: index 0 is untouched, index 3 (one past the clamped
end) does not exist, index 2 receives `3 + 20`. -/
theorem mix_write_bounded_witness :
    (add_snippet [1, 2, 3] 1 [10, 20, 30, 40]).get? 0 = ([1, 2, 3] : List ℚ).get? 0 ∧
    (add_snippet [1, 2, 3] 1 [10, 20, 30, 40]).get? 3 = ([1, 2, 3] : List ℚ).get? 3 ∧
    (add_snippet [1, 2, 3] 1 [10, 20, 30, 40]).get? 2 =
      some (([1, 2, 3] : List ℚ).getD 2 0 + ([10, 20, 30, 40] : List ℚ).getD 1 0) :=
  ⟨(mix_write_bounded [1, 2, 3] 1 [10, 20, 30, 40]).2.1 0 (by norm_num),
   (mix_write_bounded [1, 2, 3] 1 [10, 20, 30, 40]).2.2.1 3 (by norm_num),
   (mix_write_bounded [1, 2, 3] 1 [10, 20, 30, 40]).2.2.2 2 (by norm_num) (by norm_num)⟩

/-! ## Polyphony AGC pre-pass (C5)

guitar.py lines 212-224 and piano.py lines 271-282: a pre-pass adds 1 to a
grid over each event's `[start, min(end, total))` span, tracking the
running maximum of the just-updated slice; the guitar then attenuates each
note by `1/sqrt(max_polyphony)` while the piano sets a fixed `0.8`. -/

/-- A note event as extracted by the engines: `(start, end, note, velocity)`
in samples (`stop` stands for the Python `end`, a reserved word here). -/
structure NoteEvent where
  start : ℕ
  stop : ℕ
  note : ℕ
  vel : ℕ

/-- Guard of the grid pre-pass: `start < total_samples and end > start`. -/
def event_valid (total : ℕ) (e : NoteEvent) : Bool :=
  decide (e.start < total) && decide (e.start < e.stop)

/-- One numpy increment `time_grid[start:min(end, total)] += 1` as a
function update. -/
def grid_add (total : ℕ) (g : ℕ → ℕ) (e : NoteEvent) : ℕ → ℕ :=
  fun i => if e.start ≤ i ∧ i < min e.stop total then g i + 1 else g i

/-- `np.max(time_grid[a:b])` for a grid given as a function. -/
def slice_sup (g : ℕ → ℕ) (a b : ℕ) : ℕ :=
  (Finset.Ico a b).sup g

/-- One iteration of the pre-pass loop (guitar.py 216-220): on a valid
event, bump the grid on the event's clamped span and fold the slice
maximum of the updated grid into the running `max_polyphony`. -/
def poly_step (total : ℕ) (p : (ℕ → ℕ) × ℕ) (e : NoteEvent) : (ℕ → ℕ) × ℕ :=
  if event_valid total e then
    let g := grid_add total p.1 e
    (g, max p.2 (slice_sup g e.start (min e.stop total)))
  else p

/-- The complete pre-pass: fold over all events starting from the zero
grid and `max_polyphony = 1`. -/
def poly_loop (total : ℕ) (events : List NoteEvent) : (ℕ → ℕ) × ℕ :=
  events.foldl (poly_step total) (fun _ => 0, 1)

/-- `max_polyphony` as computed by guitar.py lines 214-220. -/
def max_polyphony (events : List NoteEvent) (total : ℕ) : ℕ :=
  (poly_loop total events).2

/-- Declarative count of notes active at sample `i`: the number of events
that pass the validity guard and whose clamped span contains `i`. -/
def active_count (events : List NoteEvent) (total : ℕ) (i : ℕ) : ℕ :=
  events.countP fun e =>
    event_valid total e && decide (e.start ≤ i) && decide (i < min e.stop total)

/-- piano.py lines 280-282: the piano computes the same grid but then uses
the fixed factor `agc_factor = 0.8`, deliberately ignoring the computed
polyphony (the arguments are unused, exactly as in the source). -/
def piano_agc_factor (events : List NoteEvent) (total : ℕ) : ℚ :=
  8/10

/-- Square of the guitar's `agc_factor = 1.0/np.sqrt(max_polyphony)`
(guitar.py line 223); carried squared so it stays rational. -/
def guitar_agc_sq (events : List NoteEvent) (total : ℕ) : ℚ :=
  1 / (max_polyphony events total)

theorem poly_step_snd_inv (total : ℕ) (g : ℕ → ℕ) (m : ℕ) (e : NoteEvent)
    (hm : m = max 1 ((Finset.range total).sup g)) :
    (poly_step total (g, m) e).2
      = max 1 ((Finset.range total).sup ((poly_step total (g, m) e).1)) := by
  by_cases hv : event_valid total e = true
  · have hstep : poly_step total (g, m) e
        = (grid_add total g e,
           max m (slice_sup (grid_add total g e) e.start (min e.stop total))) := by
      simp [poly_step, hv]
    rw [hstep]
    have hkey : max ((Finset.range total).sup g)
        (slice_sup (grid_add total g e) e.start (min e.stop total))
        = (Finset.range total).sup (grid_add total g e) := by
      apply le_antisymm
      · apply max_le
        · apply Finset.sup_mono_fun
          intro i hi
          unfold grid_add
          split <;> omega
        · apply Finset.sup_mono
          intro x hx
          rw [Finset.mem_Ico] at hx
          rw [Finset.mem_range]
          omega
      · apply Finset.sup_le
        intro i hi
        by_cases hin : e.start ≤ i ∧ i < min e.stop total
        · refine le_trans ?_ (le_max_right _ _)
          exact Finset.le_sup (Finset.mem_Ico.mpr hin)
        · have hgi : grid_add total g e i = g i := by
            unfold grid_add
            rw [if_neg hin]
          rw [hgi]
          exact le_trans (Finset.le_sup hi) (le_max_left _ _)
    rw [hm, max_assoc, hkey]
  · have hstep : poly_step total (g, m) e = (g, m) := by
      simp [poly_step, hv]
    rw [hstep, hm]

theorem poly_fold_snd_inv (total : ℕ) (l : List NoteEvent) :
    ∀ (g : ℕ → ℕ) (m : ℕ), m = max 1 ((Finset.range total).sup g) →
    (l.foldl (poly_step total) (g, m)).2
      = max 1 ((Finset.range total).sup ((l.foldl (poly_step total) (g, m)).1)) := by
  induction l with
  | nil => intro g m hm; simpa using hm
  | cons e l ih =>
    intro g m hm
    simp only [List.foldl_cons]
    exact ih _ _ (poly_step_snd_inv total g m e hm)

theorem poly_fold_fst (total : ℕ) (l : List NoteEvent) :
    ∀ (g : ℕ → ℕ) (m : ℕ) (i : ℕ),
      (l.foldl (poly_step total) (g, m)).1 i = g i + active_count l total i := by
  induction l with
  | nil => intro g m i; simp [active_count]
  | cons e l ih =>
    intro g m i
    simp only [List.foldl_cons]
    by_cases hv : event_valid total e = true
    · have hstep : poly_step total (g, m) e
          = (grid_add total g e,
             max m (slice_sup (grid_add total g e) e.start (min e.stop total))) := by
        simp [poly_step, hv]
      rw [hstep, ih]
      unfold grid_add active_count
      rw [List.countP_cons]
      simp only [hv, Bool.true_and]
      by_cases hin : e.start ≤ i ∧ i < min e.stop total
      · have hb : (decide (e.start ≤ i) && decide (i < min e.stop total)) = true := by
          simp [hin.1, hin.2]
        rw [if_pos hin, hb]
        simp only [if_true]
        omega
      · have hb : (decide (e.start ≤ i) && decide (i < min e.stop total)) = false := by
          rcases not_and_or.mp hin with h | h <;> simp [h]
        rw [if_neg hin, hb]
        simp only [Bool.false_eq_true, if_false]
        omega
    · have hstep : poly_step total (g, m) e = (g, m) := by
        simp [poly_step, hv]
      rw [hstep, ih]
      unfold active_count
      rw [List.countP_cons]
      have hb : (event_valid total e && decide (e.start ≤ i)
          && decide (i < min e.stop total)) = false := by
        rcases Bool.eq_false_iff.mpr hv with h
        simp [Bool.eq_false_iff.mpr hv]
      rw [hb]
      simp only [Bool.false_eq_true, if_false]
      omega

/-- C5 — `max_polyphony` is exactly `max 1` of the maximum, over the grid,
of the number of simultaneously active notes; the guitar's per-note
attenuation `1/sqrt(max_polyphony)` squares to `1/max_polyphony`; the
piano's attenuation is the fixed `0.8`, independent of the events. -/
theorem polyphony_agc (events : List NoteEvent) (total : ℕ) :
    max_polyphony events total
      = max 1 ((Finset.range total).sup (active_count events total)) ∧
    ((1 / Real.sqrt (max_polyphony events total)) ^ 2
      = (guitar_agc_sq events total : ℝ)) ∧
    (∀ events2 total2, piano_agc_factor events total = piano_agc_factor events2 total2) ∧
    piano_agc_factor events total = 8/10 := by
  have hfst : (poly_loop total events).1 = active_count events total := by
    funext i
    have h := poly_fold_fst total events (fun _ => 0) 1 i
    unfold poly_loop
    simpa using h
  have hmain : max_polyphony events total
      = max 1 ((Finset.range total).sup (active_count events total)) := by
    unfold max_polyphony
    have h := poly_fold_snd_inv total events (fun _ => 0) 1 (by simp)
    unfold poly_loop
    rw [h, ← hfst]
    rfl
  refine ⟨hmain, ?_, fun _ _ => rfl, rfl⟩
  have hpos : 0 < max_polyphony events total := by
    rw [hmain]; exact lt_of_lt_of_le one_pos (le_max_left _ _)
  have hne : ((max_polyphony events total : ℝ)) ≠ 0 := by
    exact_mod_cast Nat.pos_iff_ne_zero.mp hpos
  unfold guitar_agc_sq
  rw [div_pow, one_pow, Real.sq_sqrt (by positivity : (0:ℝ) ≤ (max_polyphony events total : ℝ))]
  push_cast
  rw [one_div]

/-! ## Piano sustain pedal and damper (C6)

piano.py lines 244-267 (event extraction with the sustain pedal) and lines
326-335 (damper fade at note-off). -/

/-- A MIDI message as consumed by the engines: note-on, note-off, a control
change, or anything else; `time` is the delta time in seconds. -/
inductive MidiMsg where
  | noteOn (note vel : ℕ) (time : ℚ)
  | noteOff (note : ℕ) (time : ℚ)
  | control (ctrl val : ℕ) (time : ℚ)
  | other (time : ℚ)

/-- `cursor += int(msg.time * SR)` (delta times are nonnegative, so the
Python truncation is the floor). -/
def cursor_advance (c : ℕ) (t : ℚ) : ℕ :=
  c + Int.toNat ⌊t * SR⌋

/-- A piano note event `(start, end, note, velocity, pedaled)`
(piano.py line 263). -/
structure PianoEvent where
  start : ℕ
  stop : ℕ
  note : ℕ
  vel : ℕ
  pedaled : Bool

/-- Parser state of the piano extraction loop: sample cursor, current
sustain-pedal state, the `active_notes` dict (newest binding first) and the
completed events. -/
structure PianoParseState where
  cursor : ℕ
  sustain : Bool
  active : List (ℕ × ℕ × ℕ × Bool)
  events : List PianoEvent

/-- `active_notes[note] = value` on the association-list model of the
Python dict. -/
def dict_set (l : List (ℕ × ℕ × ℕ × Bool)) (n strt v : ℕ) (p : Bool) :
    List (ℕ × ℕ × ℕ × Bool) :=
  (n, strt, v, p) :: l.filter fun q => decide (q.1 ≠ n)

/-- `active_notes.get(note)`. -/
def dict_get (l : List (ℕ × ℕ × ℕ × Bool)) (n : ℕ) : Option (ℕ × ℕ × Bool) :=
  (l.find? fun q => decide (q.1 = n)).map fun q => q.2

/-- `active_notes.pop(note)`. -/
def dict_pop (l : List (ℕ × ℕ × ℕ × Bool)) (n : ℕ) : List (ℕ × ℕ × ℕ × Bool) :=
  l.filter fun q => decide (q.1 ≠ n)

/-- One iteration of the piano extraction loop (piano.py 250-263): advance
the cursor, update the pedal on controller 64, open notes on note-on
(capturing the current pedal state), close them on note-off or
zero-velocity note-on. -/
def piano_step (st : PianoParseState) (m : MidiMsg) : PianoParseState :=
  match m with
  | .control c v t =>
      if c = 64 then
        { st with
            cursor := cursor_advance st.cursor t,
            sustain := decide (64 ≤ v) }
      else { st with cursor := cursor_advance st.cursor t }
  | .noteOn n v t =>
      if 0 < v then
        { st with
            cursor := cursor_advance st.cursor t,
            active := dict_set st.active n (cursor_advance st.cursor t) v st.sustain }
      else
        match dict_get st.active n with
        | some (strt, vel, ped) =>
            { st with
                cursor := cursor_advance st.cursor t,
                active := dict_pop st.active n,
                events := st.events ++ [⟨strt, cursor_advance st.cursor t, n, vel, ped⟩] }
        | none => { st with cursor := cursor_advance st.cursor t }
  | .noteOff n t =>
      match dict_get st.active n with
      | some (strt, vel, ped) =>
          { st with
              cursor := cursor_advance st.cursor t,
              active := dict_pop st.active n,
              events := st.events ++ [⟨strt, cursor_advance st.cursor t, n, vel, ped⟩] }
      | none => { st with cursor := cursor_advance st.cursor t }
  | .other t => { st with cursor := cursor_advance st.cursor t }

/-- The piano extraction loop over a whole message list. -/
def piano_parse (msgs : List MidiMsg) : PianoParseState :=
  msgs.foldl piano_step ⟨0, false, [], []⟩

/-- Effect of one message on the pedal state alone: controller 64 sets it
to `value ≥ 64`, everything else keeps it. -/
def pedal_step (s : Bool) (m : MidiMsg) : Bool :=
  match m with
  | .control c v _ => if c = 64 then decide (64 ≤ v) else s
  | _ => s

/-- Declarative pedal state after a message list: the value `≥ 64` of the
last controller-64 message, `false` if there is none. -/
def pedal_state (msgs : List MidiMsg) : Bool :=
  msgs.foldl pedal_step false

/-- Length of a rendered piano voice: `min(int(SR * 6.0), total - start)`
(piano.py line 310). -/
def piano_voice_len (total strt : ℕ) : ℕ :=
  min (6 * SR) (total - strt)

/-- What the damper does to sample `i` of a voice: left alone, multiplied
by `exp(−e)` for the given exponent `e`, or zeroed. -/
inductive DamperOp where
  | keep
  | fade (exponent : ℚ)
  | zero
deriving DecidableEq

/-- piano.py lines 326-335: when the note was not pedaled and
`0 < note_off < len − T` (with `T = int(SR·0.2)` the damper time), samples
in `[note_off, note_off+T)` are multiplied by
`exp(−5·(i−note_off)/(T−1))` (`np.exp(-np.linspace(0, 5, T))`) and samples
from `note_off+T` on are zeroed; otherwise the voice is left to decay
naturally. -/
def damper_op (pedaled : Bool) (noteOff len T i : ℕ) : DamperOp :=
  if pedaled then .keep
  else if 0 < noteOff ∧ noteOff + T < len then
    (if i < noteOff then .keep
     else if i < noteOff + T then .fade (5 * (i - noteOff) / (T - 1))
     else .zero)
  else .keep

/-- From the spec: on note-off of a non-pedaled note, apply an
`exp(−5·t/T)` fade over `T = 0.2·SR` samples starting at note-off, and the
voice is zero thereafter (no condition on the voice length). -/
def spec_damper_op (pedaled : Bool) (noteOff T i : ℕ) : DamperOp :=
  if pedaled then .keep
  else
    (if i < noteOff then .keep
     else if i < noteOff + T then .fade (5 * (i - noteOff) / T)
     else .zero)

/-- C6 counterexample — a non-pedaled note whose note-off falls within
`T = 9600` samples of the end of its rendered voice gets no damper fade at
all: with a voice of `piano_voice_len 14400000 1000 = 288000` samples
(6 s) and note-off at sample 283200 (5.9 s), the code leaves sample 287999
untouched while the spec demands an `exp(−5t/T)` fade there. -/
theorem damper_skipped_near_voice_end :
    piano_voice_len 14400000 1000 = 288000 ∧
    damper_op false 283200 288000 9600 287999 = DamperOp.keep ∧
    damper_op false 283200 288000 9600 287999 ≠
      spec_damper_op false 283200 9600 287999 := by
  refine ⟨?_, ?_, ?_⟩
  · unfold piano_voice_len SR
    norm_num
  · unfold damper_op
    norm_num
  · decide

theorem piano_step_sustain (st : PianoParseState) (m : MidiMsg) :
    (piano_step st m).sustain = pedal_step st.sustain m := by
  cases m with
  | control c v t =>
      by_cases hc : c = 64 <;> simp [piano_step, pedal_step, hc]
  | noteOn n v t =>
      by_cases hv : 0 < v
      · simp [piano_step, pedal_step, hv]
      · simp only [piano_step, if_neg hv, pedal_step]
        cases hg : dict_get st.active n with
        | some q => obtain ⟨a, b, c⟩ := q; simp
        | none => simp
  | noteOff n t =>
      simp only [piano_step, pedal_step]
      cases hg : dict_get st.active n with
      | some q => obtain ⟨a, b, c⟩ := q; simp
      | none => simp
  | other t => simp [piano_step, pedal_step]

/-- C6 amended — the `pedaled` flag of every extracted event records the
pedal state at its note-on (the parser's running sustain state equals the
declarative last-controller-64 state, and a note-on stores that state in
the open-note entry), and the damper at note-off fades by
`exp(−5·(i−note_off)/(T−1))` on `[note_off, note_off+T)` and zeroes the
samples after, but only when the note was not pedaled, `0 < note_off` and
the fade window fits inside the voice (`note_off + T < len`); in every
other case, including pedal-held notes, the voice decays naturally. -/
theorem piano_sustain_damper :
    (∀ msgs, (piano_parse msgs).sustain = pedal_state msgs) ∧
    (∀ (st : PianoParseState) (n v : ℕ) (t : ℚ), 0 < v →
      (piano_step st (.noteOn n v t)).active.head? =
        some (n, cursor_advance st.cursor t, v, st.sustain)) ∧
    (∀ (pedaled : Bool) (noteOff len T i : ℕ),
      (pedaled = true → damper_op pedaled noteOff len T i = .keep) ∧
      (pedaled = false → ¬ (0 < noteOff ∧ noteOff + T < len) →
        damper_op pedaled noteOff len T i = .keep) ∧
      (pedaled = false → 0 < noteOff → noteOff + T < len →
        (i < noteOff → damper_op pedaled noteOff len T i = .keep) ∧
        (noteOff ≤ i → i < noteOff + T →
          damper_op pedaled noteOff len T i = .fade (5 * (i - noteOff) / (T - 1))) ∧
        (noteOff + T ≤ i → damper_op pedaled noteOff len T i = .zero))) := by
  refine ⟨?_, ?_, ?_⟩
  · intro msgs
    suffices h : ∀ (l : List MidiMsg) (st : PianoParseState),
        (l.foldl piano_step st).sustain = l.foldl pedal_step st.sustain by
      exact h msgs ⟨0, false, [], []⟩
    intro l
    induction l with
    | nil => intro st; rfl
    | cons m l ih =>
      intro st
      simp only [List.foldl_cons]
      rw [ih, piano_step_sustain]
  · intro st n v t hv
    simp [piano_step, hv, dict_set]
  · intro pedaled noteOff len T i
    refine ⟨?_, ?_, ?_⟩
    · intro hp; simp [damper_op, hp]
    · intro hp hguard
      simp [damper_op, hp, hguard]
    · intro hp h1 h2
      refine ⟨?_, ?_, ?_⟩
      · intro hi
        simp [damper_op, hp, hi, h1, h2]
      · intro hi1 hi2
        simp [damper_op, hp, h1, h2, hi2, Nat.not_lt.mpr hi1]
      · intro hi
        simp [damper_op, hp, h1, h2, Nat.not_lt.mpr hi,
          Nat.not_lt.mpr (le_trans (Nat.le_add_right _ _) hi)]

/-- C6 amended witness — concrete checks: a pedal-down message makes the
parser's sustain true; a note-on in that state stores the flag; the damper
fades sample 150 of a 20000-sample voice with note-off at 100. -/
theorem piano_sustain_damper_witness :
    (piano_parse [MidiMsg.control 64 100 0, MidiMsg.noteOn 60 90 0]).sustain =
      pedal_state [MidiMsg.control 64 100 0, MidiMsg.noteOn 60 90 0] ∧
    (piano_step ⟨0, true, [], []⟩ (MidiMsg.noteOn 60 90 0)).active.head? =
      some (60, cursor_advance 0 0, 90, true) ∧
    damper_op false 100 20000 9600 150 = DamperOp.fade (5 * (150 - 100) / (9600 - 1)) :=
  ⟨piano_sustain_damper.1 [MidiMsg.control 64 100 0, MidiMsg.noteOn 60 90 0],
   piano_sustain_damper.2.1 ⟨0, true, [], []⟩ 60 90 0 (by norm_num),
   ((piano_sustain_damper.2.2 false 100 20000 9600 150).2.2 rfl (by norm_num)
      (by norm_num)).2.1 (by norm_num) (by norm_num)⟩

/-! ## Drum synthesis: routing, hi-hat stack, fixed hit lengths (C7, C10)

drums.py lines 27-39 (`generate_metallic_noise`), 213-234
(`synth_hihat_metallic`) and 286-352 (the note-on routing of
`midi_to_audio`). -/

/-- Sign of `sin(2πx)` for rational `x`: the value of
`np.sign(np.sin(2*np.pi*f*t))`, the square wave drums.py line 38 builds.
`+1` on the first half of each period, `−1` on the second, `0` at the
half-period points. -/
def sgn_sin2pi (x : ℚ) : ℚ :=
  if Int.fract x = 0 ∨ Int.fract x = 1/2 then 0
  else if Int.fract x < 1/2 then 1 else -1

/-- `np.linspace(0, n/SR, n)[i]`, the time axis of drums.py lines 32
and 44. -/
def linspace_t (n i : ℕ) : ℚ :=
  if n ≤ 1 then 0 else ((n : ℚ) / SR) * i / ((n : ℚ) - 1)

/-- The six square-wave frequencies of drums.py line 34
(`freqs = [200, 300, 450, 600, 750, 900]`). -/
def metallic_freqs : List ℚ :=
  [200, 300, 450, 600, 750, 900]

/-- Sample `i` of `generate_metallic_noise(n)` (drums.py lines 27-39): the
mean of six square waves at `metallic_freqs`. -/
def generate_metallic_noise (n i : ℕ) : ℚ :=
  (metallic_freqs.map fun f => sgn_sin2pi (f * linspace_t n i)).sum / 6

/-- Highpass cutoff of `synth_hihat_metallic` (drums.py lines 224-226):
5000 Hz closed / 3000 Hz open, shifted by `(brightness − 0.5)·2000`. -/
def hihat_cutoff (isOpen : Bool) (brightness : ℚ) : ℚ :=
  (if isOpen then 3000 else 5000) + (brightness - 1/2) * 2000

/-- Envelope decay rate of `synth_hihat_metallic` (drums.py line 231):
`exp(−40·t)` closed, `exp(−6·t)` open. -/
def hihat_decay (isOpen : Bool) : ℚ :=
  if isOpen then 6 else 40

/-- From the spec: six sinusoid frequencies `{263, 400, 421, 474, 587,
845}` Hz for the closed hat. -/
def spec_hihat_freqs : List ℚ :=
  [263, 400, 421, 474, 587, 845]

/-- From the spec: closed-hat highpass at `7000 + (brightness−0.5)·2000`
Hz. -/
def spec_hihat_cutoff (brightness : ℚ) : ℚ :=
  7000 + (brightness - 1/2) * 2000

/-- The drum voice classes of drums.py lines 300-343. -/
inductive DrumClass where
  | kick
  | snare
  | closedHat
  | openHat
  | tomLow
  | tomMid
  | tomHigh
  | cymbal
deriving DecidableEq

/-- Note-number routing of drums.py lines 300-343 (the `elif` chain on the
General MIDI drum map). -/
def drum_route (note : ℕ) : Option DrumClass :=
  if note = 35 ∨ note = 36 then some .kick
  else if note = 38 ∨ note = 40 ∨ note = 37 then some .snare
  else if note = 42 ∨ note = 44 then some .closedHat
  else if note = 46 then some .openHat
  else if note = 41 ∨ note = 43 then some .tomLow
  else if note = 45 ∨ note = 47 then some .tomMid
  else if note = 48 ∨ note = 50 then some .tomHigh
  else if note = 49 ∨ note = 57 ∨ note = 51 ∨ note = 59 then some .cymbal
  else none

/-- Synthesized hit duration in seconds per class (the literal arguments
`int(SR * 0.5)`, `int(SR * 0.3)`, … of drums.py lines 304-343). -/
def drum_hit_secs (c : DrumClass) : ℚ :=
  match c with
  | .kick => 1/2
  | .snare => 3/10
  | .closedHat => 3/20
  | .openHat => 4/5
  | .tomLow => 1/2
  | .tomMid => 9/20
  | .tomHigh => 2/5
  | .cymbal => 2

/-- Synthesized hit length in samples, `int(secs * SR)`. -/
def drum_hit_len (c : DrumClass) : ℕ :=
  Int.toNat ⌊drum_hit_secs c * SR⌋

theorem sgn_sin2pi_bounds (x : ℚ) : -1 ≤ sgn_sin2pi x ∧ sgn_sin2pi x ≤ 1 := by
  unfold sgn_sin2pi
  split_ifs <;> norm_num

/-- C7 counterexample — the closed hi-hat synthesis does not match the
claim: the stack frequencies are `{200, 300, 450, 600, 750, 900}` Hz (and
they are square waves, `np.sign(np.sin(...))`), not sinusoids at
`{263, 400, 421, 474, 587, 845}`; the highpass base is 5000 Hz, not 7000;
the envelope decay is 40, not 50. -/
theorem hihat_differs_from_spec :
    metallic_freqs ≠ spec_hihat_freqs ∧
    hihat_cutoff false (1/2) = 5000 ∧
    spec_hihat_cutoff (1/2) = 7000 ∧
    hihat_cutoff false (1/2) ≠ spec_hihat_cutoff (1/2) ∧
    hihat_decay false ≠ 50 := by
  refine ⟨by decide, ?_, ?_, ?_, by decide⟩
  · unfold hihat_cutoff
    norm_num
  · unfold spec_hihat_cutoff
    norm_num
  · unfold hihat_cutoff spec_hihat_cutoff
    norm_num

/-- C7 amended — notes 42 and 44 route to the closed hi-hat, whose
synthesis is the mean of six square waves at `{200, 300, 450, 600, 750,
900}` Hz, highpassed at `5000 + (brightness − 0.5)·2000` Hz with envelope
`exp(−40·t)` over a fixed `0.15 s` hit; the stack output always stays in
`[−1, 1]` (no overflow before the velocity scaling). -/
theorem hihat_closed_synthesis (b : ℚ) (n i : ℕ) :
    drum_route 42 = some DrumClass.closedHat ∧
    drum_route 44 = some DrumClass.closedHat ∧
    hihat_cutoff false b = 5000 + (b - 1/2) * 2000 ∧
    hihat_decay false = 40 ∧
    drum_hit_len DrumClass.closedHat = 7200 ∧
    generate_metallic_noise n i =
      (metallic_freqs.map fun f => sgn_sin2pi (f * linspace_t n i)).sum / 6 ∧
    |generate_metallic_noise n i| ≤ 1 := by
  refine ⟨by decide, by decide, rfl, rfl,
    by norm_num [drum_hit_len, drum_hit_secs, SR]; rfl, rfl, ?_⟩
  unfold generate_metallic_noise
  simp only [metallic_freqs, List.map_cons, List.map_nil, List.sum_cons,
    List.sum_nil]
  obtain ⟨a1, b1⟩ := sgn_sin2pi_bounds (200 * linspace_t n i)
  obtain ⟨a2, b2⟩ := sgn_sin2pi_bounds (300 * linspace_t n i)
  obtain ⟨a3, b3⟩ := sgn_sin2pi_bounds (450 * linspace_t n i)
  obtain ⟨a4, b4⟩ := sgn_sin2pi_bounds (600 * linspace_t n i)
  obtain ⟨a5, b5⟩ := sgn_sin2pi_bounds (750 * linspace_t n i)
  obtain ⟨a6, b6⟩ := sgn_sin2pi_bounds (900 * linspace_t n i)
  rw [abs_le]
  constructor <;> linarith

/-- State of the drums rendering loop (drums.py lines 280-291): running
time in seconds, the `break` flag for events past the buffer, and the
scheduled hits `(start_sample, class, velocity)`. -/
structure DrumState where
  time : ℚ
  stopped : Bool
  hits : List (ℕ × DrumClass × ℕ)

/-- Delta time of a message. -/
def msg_time : MidiMsg → ℚ
  | .noteOn _ _ t => t
  | .noteOff _ t => t
  | .control _ _ t => t
  | .other t => t

/-- One iteration of the drums message loop (drums.py lines 286-352):
advance the clock, stop for good once a start position reaches the buffer
end (the `break`), schedule a hit only for a `note_on` with positive
velocity on a mapped drum note.  `note_off` messages only advance the
clock. -/
def drums_step (total : ℕ) (st : DrumState) (m : MidiMsg) : DrumState :=
  if st.stopped then st
  else
    let t2 := st.time + msg_time m
    if total ≤ Int.toNat ⌊t2 * SR⌋ then { st with time := t2, stopped := true }
    else
      match m with
      | .noteOn n v _ =>
          if 0 < v then
            match drum_route n with
            | some c =>
                { st with
                    time := t2,
                    hits := st.hits ++ [(Int.toNat ⌊t2 * SR⌋, c, v)] }
            | none => { st with time := t2 }
          else { st with time := t2 }
      | _ => { st with time := t2 }

/-- C10 — a `note_off` never changes the scheduled hits (the drums loop
reads only `note_on` messages, so a note's held duration has no effect),
and every synthesized hit length is the fixed constant of its drum class:
kick 0.5 s = 24000 samples, snare 0.3 s, closed hat 0.15 s, open hat
0.8 s, cymbals 2.0 s, toms 0.4-0.5 s. -/
theorem drum_hit_length_fixed :
    (∀ (total : ℕ) (st : DrumState) (n : ℕ) (t : ℚ),
      (drums_step total st (.noteOff n t)).hits = st.hits) ∧
    drum_hit_len DrumClass.kick = 24000 ∧
    drum_hit_len DrumClass.snare = 14400 ∧
    drum_hit_len DrumClass.closedHat = 7200 ∧
    drum_hit_len DrumClass.openHat = 38400 ∧
    drum_hit_len DrumClass.cymbal = 96000 ∧
    drum_hit_len DrumClass.tomLow = 24000 ∧
    drum_hit_len DrumClass.tomMid = 21600 ∧
    drum_hit_len DrumClass.tomHigh = 19200 := by
  refine ⟨?_, ?_, ?_, ?_, ?_, ?_, ?_, ?_, ?_⟩ <;>
    try (norm_num [drum_hit_len, drum_hit_secs, SR]; rfl)
  intro total st n t
  unfold drums_step
  by_cases hs : st.stopped = true
  · simp [hs]
  · simp only [Bool.not_eq_true] at hs
    simp only [hs]
    split_ifs <;> simp [msg_time]

/-! ## Karplus-Strong excitation noise and determinism (C9)

guitar.py lines 11-88 (`karplus_strong_hifi`).  The excitation draws
`np.random.uniform(-0.2, 0.2)` from the module-global NumPy RNG once per
burst sample; no seed parameter exists anywhere in the API
(`midi_to_audio(midi_stream, brightness, pluck_position, body_mix,
reflection, coupling)`).  The ambient RNG is modelled as an explicit
stream `noise : ℕ → ℚ` of the drawn values. -/

/-- Excitation sample `i < burst_len` of `karplus_strong_hifi`
(guitar.py lines 23-53): triangle wave, trapezoid window, brightness
lowpass against the previous output sample, and the noise draw mixed in at
20%.  (`delay ≥ 2` in the engine, guitar.py lines 235-237, so the integer
quarters are nonzero for any burst the engine produces.) -/
def ks_excite_sample (n delay : ℕ) (velocity brightness : ℚ) (noise : ℕ → ℚ)
    (out : List ℚ) (i : ℕ) : ℚ :=
  let burst := min delay n
  let half := burst / 2
  let quarter := burst / 4
  let triangle : ℚ :=
    if i < half then ((i : ℚ) / half) * 2 - 1
    else 1 - (((i : ℚ) - half) / half) * 2
  let window : ℚ :=
    if i < quarter then (i : ℚ) / quarter
    else if 3 * burst / 4 < i then ((burst : ℚ) - i) / quarter
    else 1
  let smoothed : ℚ :=
    if 0 < i then triangle * brightness + out.getD (i - 1) 0 * (1 - brightness) * (2/10)
    else triangle
  (smoothed * (8/10) + noise i * (2/10)) * window * velocity

/-- Feedback sample `i ≥ delay` of `karplus_strong_hifi` (guitar.py lines
66-86): two-point lowpass over the delay line, tension-stiffening
non-linearity above amplitude 0.3, and dynamic damping. -/
def ks_feedback_sample (delay : ℕ) (brightness final_decay : ℚ)
    (out : List ℚ) (i : ℕ) : ℚ :=
  let delayed1 := out.getD (i - delay) 0
  let delayed2 := if delay < i then out.getD (i - delay - 1) 0 else 0
  let alpha := 1/2 + brightness * (35/100)
  let filtered := delayed1 * alpha + delayed2 * (1 - alpha)
  let amplitude := |filtered|
  let filtered2 :=
    if 3/10 < amplitude then filtered * (1 + (amplitude - 3/10) * (2/100)) else filtered
  filtered2 * (final_decay * (1 - amplitude * (1/100)))

/-- Builds the first `k` samples of the `karplus_strong_hifi` output
buffer; sample `i` is an excitation sample for `i < min delay n` and a
feedback sample after (the decay comes from `guitar_final_decay` at
`freq = SR/delay`, guitar.py lines 56-64). -/
def ks_build (n delay : ℕ) (velocity brightness decayF : ℚ) (noise : ℕ → ℚ) :
    ℕ → List ℚ
  | 0 => []
  | i + 1 =>
      let out := ks_build n delay velocity brightness decayF noise i
      out ++
        [if i < min delay n then ks_excite_sample n delay velocity brightness noise out i
         else ks_feedback_sample delay brightness
            (guitar_final_decay ((SR : ℚ) / delay) decayF) out i]

/-- `karplus_strong_hifi(n_samples, delay_samples, velocity, brightness,
decay_factor)` with the ambient RNG as an explicit noise stream. -/
def karplus_strong_hifi (n delay : ℕ) (velocity brightness decayF : ℚ)
    (noise : ℕ → ℚ) : List ℚ :=
  ks_build n delay velocity brightness decayF noise n

/-- C9 counterexample — the render output is not determined by the
caller-suppliable arguments: with every caller argument identical, two
different states of the ambient (global, unseedable) NumPy RNG give
different Karplus-Strong buffers, so no caller-provided seed controls the
excitation noise. -/
theorem ks_depends_on_ambient_rng :
    karplus_strong_hifi 4 4 1 (1/2) 0 (fun _ => 0) ≠
      karplus_strong_hifi 4 4 1 (1/2) 0 (fun _ => 1/10) := by
  simp only [karplus_strong_hifi, ks_build, ks_excite_sample, ks_feedback_sample]
  norm_num

theorem ks_build_noise_congr (n delay : ℕ) (velocity brightness decayF : ℚ)
    (noise1 noise2 : ℕ → ℚ) (h : ∀ i, i < min delay n → noise1 i = noise2 i) :
    ∀ k, ks_build n delay velocity brightness decayF noise1 k
      = ks_build n delay velocity brightness decayF noise2 k := by
  intro k
  induction k with
  | zero => rfl
  | succ i ih =>
    simp only [ks_build]
    rw [ih]
    by_cases hi : i < min delay n
    · simp only [if_pos hi]
      unfold ks_excite_sample
      rw [h i hi]
    · simp only [if_neg hi]

/-- C9 amended — the Karplus-Strong buffer is a pure function of the
caller arguments and the first `burst_len = min(delay, n)` ambient RNG
draws: any two RNG streams that agree on those draws produce bit-identical
buffers (the feedback loop consumes no randomness).  Identical streams are
the special case, so a render is reproducible exactly when the global RNG
state is reproduced; the API itself exposes no seed. -/
theorem ks_deterministic_given_noise (n delay : ℕ)
    (velocity brightness decayF : ℚ) (noise1 noise2 : ℕ → ℚ)
    (h : ∀ i, i < min delay n → noise1 i = noise2 i) :
    karplus_strong_hifi n delay velocity brightness decayF noise1
      = karplus_strong_hifi n delay velocity brightness decayF noise2 :=
  ks_build_noise_congr n delay velocity brightness decayF noise1 noise2 h n

/-- C9 amended witness — streams that agree on the 4 burst draws but
differ afterwards give identical buffers. -/
theorem ks_deterministic_given_noise_witness :
    karplus_strong_hifi 4 4 1 (1/2) 0 (fun _ => 0)
      = karplus_strong_hifi 4 4 1 (1/2) 0 (fun i => if i < 4 then 0 else 7) :=
  ks_deterministic_given_noise 4 4 1 (1/2) 0 _ _
    (by intro i hi; rw [if_pos (show i < 4 by simpa using hi)])
